import Mathlib

/-!
# Verification of the Vast.ai Auto Shutoff monitoring core

A shallow embedding of the inactivity-detection-and-lifecycle-control engine of
the repository, covering:

* `monitor_process.py` (namespace `Monitor`): the file-command-driven monitor
  loop, its liveness probe, command channel, status publisher and the
  timeout/DeleteNow deletion paths;
* `vast_auto_shutoff.py` (namespace `Vast`): the config-driven monitor loop,
  its liveness probe and its label-filtered instance enumeration.

Modelling conventions:

* Wall-clock times are rationals (seconds since the epoch); each loop
  iteration ("tick") observes a single `now` (the source calls
  `datetime.now()` several times per iteration, microseconds apart).
* The OS process table is a `List (Option String)`: `some name` is an
  enumerable process with that name, `none` is a process that disappeared or
  denied access mid-enumeration (`psutil.NoSuchProcess` / `AccessDenied` /
  `ZombieProcess`, which the source skips).
* The remote API response is an `Option (List Instance)`: `none` models a
  request exception or a response without an `instances` key (both make
  `get_instances` return the empty list); `deleteOk : Int → Bool` gives the
  outcome of `delete_instance` for each instance id.
* The command directory is a `List CmdFile`; a file whose `removeFails` flag
  is set makes `os.remove` raise for it.
* Python string operations (`lower`, `strip`, `split`, substring `in`,
  `int(...)`) are re-implemented on `List Char` restricted to ASCII, and
  Python's truthiness tests (`if identifier:`, `if instance_id:`, `a or b`)
  are modelled explicitly.
-/

/-- `listPre p s` is true iff the list `p` is an initial segment of `s`
(used for glob patterns such as `stop_*.json` and for substring search). -/
def listPre : List Char → List Char → Bool
  | [], _ => true
  | _ :: _, [] => false
  | a :: as, b :: bs => a == b && listPre as bs

/-- Python's substring test `needle in hay`. -/
def containsSub (n : List Char) : List Char → Bool
  | [] => n.isEmpty
  | c :: t => listPre n (c :: t) || containsSub n t

/-- Python `str.lower()` (ASCII model, matching `Char.toLower`). -/
def lowerL (l : List Char) : List Char := l.map Char.toLower

/-- Python `str.strip()`: drop whitespace from both ends. -/
def stripL (l : List Char) : List Char :=
  ((l.dropWhile Char.isWhitespace).reverse.dropWhile Char.isWhitespace).reverse

/-- Python `str.split(',')`: split on every comma, keeping empty pieces
(`"".split(',') == ['']`, `"a,".split(',') == ['a', '']`). -/
def splitComma : List Char → List (List Char)
  | [] => [[]]
  | c :: rest =>
    if c = ',' then [] :: splitComma rest
    else
      match splitComma rest with
      | g :: gs => (c :: g) :: gs
      | [] => [[c]]

/-- Value of an ASCII decimal digit. -/
def digitVal (c : Char) : Option Nat :=
  if '0' ≤ c && c ≤ '9' then some (c.toNat - '0'.toNat) else none

/-- Digits of a Python integer literal after the first one: decimal digits
with single underscores allowed between digits (as `int("1_000")` accepts). -/
def parseUDigits (acc : Nat) : List Char → Option Nat
  | [] => some acc
  | '_' :: c :: rest =>
    match digitVal c with
    | some d => parseUDigits (acc * 10 + d) rest
    | none => none
  | c :: rest =>
    match digitVal c with
    | some d => parseUDigits (acc * 10 + d) rest
    | none => none

/-- Python `int(s)` on a string: strips surrounding whitespace, allows an
optional sign, then decimal digits with single interior underscores; `none`
models the `ValueError` branch. (ASCII model: non-ASCII digit forms are out
of scope.) -/
def pyToInt (s : String) : Option Int :=
  match stripL s.toList with
  | '-' :: c :: rest =>
    (match digitVal c with
     | some d => (parseUDigits d rest).map (fun n => -(n : Int))
     | none => none)
  | '+' :: c :: rest =>
    (match digitVal c with
     | some d => (parseUDigits d rest).map (fun n => (n : Int))
     | none => none)
  | c :: rest =>
    (match digitVal c with
     | some d => (parseUDigits d rest).map (fun n => (n : Int))
     | none => none)
  | [] => none

/-- Python `int(q)` on a float/timedelta value: truncation toward zero. -/
def pyTrunc (q : ℚ) : Int :=
  if q < 0 then -⌊-q⌋ else ⌊q⌋

/-- Python truthiness of `dict.get(...)` results that are `None` or `int`
(`if instance_id:`): `None` and `0` are falsy. -/
def optIntTruthy : Option Int → Bool
  | none => false
  | some n => n != 0

/-- Python `a or b` on such values: `a` if truthy, else `b`. -/
def pyOrOpt (a b : Option Int) : Option Int :=
  if optIntTruthy a then a else b

/-- Python truthiness of an optional string (`if identifier:`):
`None` and `""` are falsy. -/
def optStrTruthy : Option String → Bool
  | none => false
  | some s => s != ""

/-- A remote Vast.ai instance, reduced to the dictionary keys the code reads:
`id`, `instance_id` and `label` (each possibly absent). -/
structure Instance where
  id : Option Int
  instance_id : Option Int
  label : Option String
deriving DecidableEq

/-- A file in the `commands` directory: its name (relative to the directory)
and whether `os.remove` raises for it. -/
structure CmdFile where
  name : String
  removeFails : Bool
deriving DecidableEq

/-- Whether a file name matches the glob `<pat>*.json` (as in
`glob.glob('commands/stop_*.json')`). -/
def cmdMatch (pat : String) (f : CmdFile) : Bool :=
  listPre pat.toList f.name.toList && listPre ".json".toList.reverse f.name.toList.reverse

namespace Monitor

/-- The `for file in files: os.remove(file)` loop of `check_for_commands`:
removes files in order, stopping at the first failing removal (the raised
exception aborts the loop). Returns whether all removals succeeded and the
resulting directory contents. -/
def removeAll (files : List CmdFile) (fs : List CmdFile) : Bool × List CmdFile :=
  match files with
  | [] => (true, fs)
  | f :: rest =>
    if f.removeFails then (false, fs)
    else removeAll rest (fs.filter fun g => g.name != f.name)

/-- One priority level of `check_for_commands`: glob the pattern; if files are
found, try to remove them all and deliver `cmd`; on a removal failure the
exception handler logs and control falls through to the next level. -/
def tryKind (pat cmd : String) (next : List CmdFile → Option String × List CmdFile)
    (fs : List CmdFile) : Option String × List CmdFile :=
  let files := fs.filter (cmdMatch pat)
  if files.isEmpty then next fs
  else
    let r := removeAll files fs
    if r.1 then (some cmd, r.2) else next r.2

/-- `check_for_commands` from `monitor_process.py`: scan the command directory
in the fixed priority order stop > delete_now > pause > resume. -/
def check_for_commands (fs : List CmdFile) : Option String × List CmdFile :=
  tryKind "stop_" "stop"
    (tryKind "delete_now_" "delete_now"
      (tryKind "pause_" "pause"
        (tryKind "resume_" "resume"
          (fun fs => (none, fs))))) fs

end Monitor


namespace Monitor

/-- The inner loop of `monitor_process.is_process_running` for one process
table entry: psutil errors (`none`) contribute nothing; otherwise each
watch-list entry is stripped, lowered and tested as a substring of the
lowered process name. -/
def procMatch (process_list : List (List Char)) : Option String → Bool
  | none => false
  | some nm => process_list.any fun process_name =>
      containsSub (lowerL (stripL process_name)) (lowerL nm.toList)

/-- `is_process_running` from `monitor_process.py`: split the comma-separated
watch string and report whether any enumerable process matches (the source
returns `True` from inside the loop, i.e. on the first match). -/
def is_process_running (process_names : String) (procs : List (Option String)) : Bool :=
  procs.any (procMatch (splitComma process_names.toList))

/-- `get_instances` from `monitor_process.py`, with the HTTP layer abstracted
into `resp` (`none` = request exception or missing `instances` key, both of
which make the source return `[]`). If the identifier is truthy, try
`int(identifier)`: on success filter by `id`, on `ValueError` filter by exact
`label` equality. -/
def get_instances (resp : Option (List Instance)) (identifier : Option String) :
    List Instance :=
  match resp with
  | none => []
  | some instances =>
    if optStrTruthy identifier then
      let ident := identifier.getD ""
      match pyToInt ident with
      | some instance_id => instances.filter fun i => i.id == some instance_id
      | none => instances.filter fun i => i.label == some ident
    else instances

/-- The file name `update_status` writes to:
`f"status_\x7bint(time.time())\x7d.json"`. -/
def statusFileName (now : ℚ) : String :=
  "status_" ++ toString (pyTrunc now) ++ ".json"

/-- The `time_remaining` string of the main loop
(`divmod(int(remaining.total_seconds()), 60)` twice, then hours/minutes/
seconds formatting). -/
def formatRemaining (remaining : ℚ) : String :=
  let t := pyTrunc remaining
  let minutes := Int.fdiv t 60
  let seconds := Int.fmod t 60
  let hours := Int.fdiv minutes 60
  let minutes2 := Int.fmod minutes 60
  if hours > 0 then
    toString hours ++ "h " ++ toString minutes2 ++ "m " ++ toString seconds ++ "s"
  else
    toString minutes2 ++ "m " ++ toString seconds ++ "s"

/-- Per-run configuration of `monitor_process.main` (the four required
command-line arguments; the API key is opaque to the control flow and
omitted). -/
structure Config where
  processes_to_monitor : String
  timeout_minutes : ℚ
  instance_identifier : String

/-- Mutable loop state of `monitor_process.main`. -/
structure MonitorState where
  process_running : Bool
  last_seen_running : ℚ
  paused : Bool
deriving DecidableEq

/-- The environment one tick observes: the single wall-clock time of the
iteration, the process-table snapshot, the command-directory contents, the
API list response and the per-id deletion outcomes. -/
structure Env where
  now : ℚ
  procs : List (Option String)
  fs : List CmdFile
  apiResp : Option (List Instance)
  deleteOk : Int → Bool

/-- Observable actions of one tick: `statusUpdate` is a call to
`update_status` (status string, `process_running`, `time_remaining`);
`timeoutFired` marks entry into the timeout-deletion branch (the
`"Timeout reached"` log, line 279); `deleteNowFired` marks entry into the
`delete_now` handler (line 243); `deleteAttempt` is a `delete_instance` call
with its outcome. -/
inductive Event where
  | statusUpdate (status : String) (process_running : Bool) (time_remaining : Option String)
  | timeoutFired
  | deleteNowFired
  | deleteAttempt (instance_id : Int) (ok : Bool)
deriving DecidableEq

/-- How a tick ends: `exited` models `sys.exit(0)` (the stop command),
`stopped` models `break` after a successful timeout deletion (the process
then falls off the loop and exits normally), `continued` proceeds to the
next tick. -/
inductive TickRes where
  | exited
  | stopped
  | continued
deriving DecidableEq

/-- Result of one tick. -/
structure TickOut where
  res : TickRes
  st : MonitorState
  fs : List CmdFile
  events : List Event

/-- The `for instance in instances:` deletion loop (lines 285-289 and the
analogous delete_now loop): skip instances whose `id` is falsy, attempt
deletion of the others, and track whether any deletion succeeded. -/
def runDeletes (delOk : Int → Bool) : List Instance → List Event × Bool
  | [] => ([], false)
  | i :: rest =>
    let hd : List Event × Bool :=
      match i.id with
      | some n => if n != 0 then ([Event.deleteAttempt n (delOk n)], delOk n) else ([], false)
      | none => ([], false)
    let tl := runDeletes delOk rest
    (hd.1 ++ tl.1, hd.2 || tl.2)

/-- The `paused` flag after the command-handling phase of a tick. -/
def pausedAfter (paused : Bool) (cmd : Option String) : Bool :=
  if cmd = some "pause" then true
  else if cmd = some "resume" then false
  else paused

/-- Events of the command-handling phase for a non-stop command: the
pause/resume status snapshots, or the `delete_now` handler (which
enumerates and deletes unconditionally, ignoring outcomes). -/
def cmdEvents (cfg : Config) (st : MonitorState) (e : Env) (cmd : Option String) :
    List Event :=
  if cmd = some "pause" then [.statusUpdate "Monitoring Paused" st.process_running none]
  else if cmd = some "resume" then
    [.statusUpdate "Monitoring Resumed" st.process_running none]
  else if cmd = some "delete_now" then
    .deleteNowFired ::
      (runDeletes e.deleteOk (get_instances e.apiResp (some cfg.instance_identifier))).1
  else []

/-- State after the probe-edge handling of lines 262-271: on a state change,
record the new `process_running` and reset `last_seen_running` to now. -/
def edgeState (st1 : MonitorState) (now : ℚ) (current : Bool) : MonitorState :=
  if current != st1.process_running then
    { st1 with process_running := current, last_seen_running := now }
  else st1

/-- Status snapshots of the probe-edge handling. -/
def edgeEvents (st1 : MonitorState) (current : Bool) : List Event :=
  if current != st1.process_running then
    if current then [.statusUpdate "Process Running" true none]
    else [.statusUpdate "Process Not Running" false none]
  else []

/-- One iteration of the `while True:` loop of `monitor_process.main`
(lines 225-319): drain commands, handle stop/pause/resume/delete_now, skip
the rest if paused, probe, handle probe edges, and evaluate the
grace-period timer with its three deletion outcomes. -/
def tick (cfg : Config) (st : MonitorState) (e : Env) : TickOut :=
  let c := check_for_commands e.fs
  if c.1 = some "stop" then
    { res := .exited, st := st, fs := c.2,
      events := [.statusUpdate "Monitoring Stopped" st.process_running none] }
  else
    let st1 : MonitorState := { st with paused := pausedAfter st.paused c.1 }
    let evs1 : List Event := cmdEvents cfg st e c.1
    if st1.paused then { res := .continued, st := st1, fs := c.2, events := evs1 }
    else
      let current := is_process_running cfg.processes_to_monitor e.procs
      let st2 : MonitorState := edgeState st1 e.now current
      let evs2 : List Event := edgeEvents st1 current
      if st2.process_running then
        { res := .continued, st := st2, fs := c.2,
          events := evs1 ++ evs2 ++
            [.statusUpdate "Process Running" true (some "N/A - Process Running")] }
      else
        let remaining := cfg.timeout_minutes * 60 - (e.now - st2.last_seen_running)
        let fmt := formatRemaining remaining
        let notRun : Event :=
          .statusUpdate ("Process Not Running - " ++ fmt ++ " until deletion") false (some fmt)
        if remaining ≤ 0 then
          let instances := get_instances e.apiResp (some cfg.instance_identifier)
          if instances.isEmpty then
            { res := .continued,
              st := { st2 with last_seen_running := e.now - cfg.timeout_minutes * 60 + 60 },
              fs := c.2, events := evs1 ++ evs2 ++ [.timeoutFired, notRun] }
          else
            let d := runDeletes e.deleteOk instances
            if d.2 then
              { res := .stopped, st := st2, fs := c.2,
                events := evs1 ++ evs2 ++ [.timeoutFired] ++ d.1 ++
                  [.statusUpdate "Instances Deleted, Monitoring Stopped" false none] }
            else
              { res := .continued, st := { st2 with last_seen_running := e.now },
                fs := c.2, events := evs1 ++ evs2 ++ [.timeoutFired] ++ d.1 ++ [notRun] }
        else
          { res := .continued, st := st2, fs := c.2, events := evs1 ++ evs2 ++ [notRun] }

/-- The events emitted by a run of the loop over a list of per-tick
environments (the external controller may change the command directory and
the process table between ticks, so each tick's environment is supplied
separately). The run ends early when a tick exits or stops. -/
def runEvents (cfg : Config) : MonitorState → List Env → List Event
  | _, [] => []
  | st, e :: es =>
    let o := tick cfg st e
    match o.res with
    | .continued => o.events ++ runEvents cfg o.st es
    | _ => o.events

end Monitor

namespace Vast

/-- The per-process check of `vast_auto_shutoff.is_process_running`:
case-insensitive exact equality between a watch-list entry and the process
name; erroring processes (`none`) contribute nothing. -/
def procMatch (process_names : List String) : Option String → Bool
  | none => false
  | some nm =>
    let process_name := lowerL nm.toList
    process_names.any fun q => lowerL q.toList == process_name

/-- `is_process_running` from `vast_auto_shutoff.py`. -/
def is_process_running (process_names : List String) (procs : List (Option String)) : Bool :=
  procs.any (procMatch process_names)

/-- `get_instances` from `vast_auto_shutoff.py` (REST fallback; the SDK path
applies the identical filter): if the label is truthy, keep instances whose
(lowered) `label` — defaulting to `""` — contains the (lowered) selector as
a substring. No integer parse is attempted. -/
def get_instances (resp : Option (List Instance)) (instance_label : Option String) :
    List Instance :=
  match resp with
  | none => []
  | some instances =>
    if optStrTruthy instance_label then
      let lbl := instance_label.getD ""
      instances.filter fun i =>
        containsSub (lowerL lbl.toList) (lowerL (i.label.getD "").toList)
    else instances

/-- Configuration of `vast_auto_shutoff.main` (from `config.ini`;
`timeout_minutes` is integer-valued in the source). -/
structure Config where
  process_names : List String
  timeout_minutes : ℚ
  instance_label : String

/-- Loop state of `vast_auto_shutoff.main`. -/
structure LoopState where
  last_active_time : ℚ
  instances_terminated : Bool
deriving DecidableEq

/-- Per-tick environment for the `vast_auto_shutoff` loop. -/
structure Env where
  now : ℚ
  procs : List (Option String)
  apiResp : Option (List Instance)
  deleteOk : Int → Bool

/-- Observable actions of one `vast_auto_shutoff` tick. -/
inductive VEvent where
  | timeoutFired
  | deleteAttempt (instance_id : Int) (ok : Bool)
deriving DecidableEq

/-- The deletion loop of `vast_auto_shutoff.main` (lines 246-259):
`instance_id = instance.get('id') or instance.get('instance_id')`,
skipped when falsy. -/
def runDeletes (delOk : Int → Bool) : List Instance → List VEvent
  | [] => []
  | i :: rest =>
    (match pyOrOpt i.id i.instance_id with
     | some n => if n != 0 then [VEvent.deleteAttempt n (delOk n)] else []
     | none => []) ++ runDeletes delOk rest

/-- One iteration of the `while True:` loop of `vast_auto_shutoff.main`
(lines 220-261): if the probe sees the process, reset the timer and clear
the terminated flag; otherwise, when the inactivity timeout has been
reached and instances have not yet been terminated, enumerate and delete —
setting `instances_terminated` only when at least one instance was found,
regardless of deletion success. -/
def tick (cfg : Config) (st : LoopState) (e : Env) : LoopState × List VEvent :=
  if is_process_running cfg.process_names e.procs then
    ({ last_active_time := e.now, instances_terminated := false }, [])
  else
    let inactive_minutes := (e.now - st.last_active_time) / 60
    if inactive_minutes ≥ cfg.timeout_minutes ∧ st.instances_terminated = false then
      let instances := get_instances e.apiResp (some cfg.instance_label)
      if instances.isEmpty then (st, [.timeoutFired])
      else ({ st with instances_terminated := true },
            .timeoutFired :: runDeletes e.deleteOk instances)
    else (st, [])

end Vast

/-- A command file recognized by some pattern of `check_for_commands`. -/
def recognizedCmd (f : CmdFile) : Bool :=
  cmdMatch "stop_" f || cmdMatch "delete_now_" f ||
    cmdMatch "pause_" f || cmdMatch "resume_" f

namespace Monitor

/-- The kind-string returned by `check_for_commands` for each glob pattern. -/
def patOf : String → Option String
  | "stop" => some "stop_"
  | "delete_now" => some "delete_now_"
  | "pause" => some "pause_"
  | "resume" => some "resume_"
  | _ => none

end Monitor

namespace Monitor

theorem cmdMatch_name (pat : String) (f g : CmdFile) (h : f.name = g.name) :
    cmdMatch pat f = cmdMatch pat g := by
  simp [cmdMatch, h]

theorem bne_name_comm (a b : String) : (a != b) = (b != a) := by
  simp [bne, beq_iff_eq, eq_comm]

theorem removeAll_ok (files fs : List CmdFile)
    (hok : ∀ f ∈ files, f.removeFails = false) :
    removeAll files fs =
      (true, fs.filter fun g => files.all fun f => f.name != g.name) := by
  induction files generalizing fs with
  | nil => simp [removeAll]
  | cons f rest ih =>
    have hf : f.removeFails = false := hok f (List.mem_cons_self f rest)
    rw [removeAll, if_neg (by simp [hf])]
    rw [ih _ (fun g hg => hok g (List.mem_cons_of_mem f hg))]
    rw [List.filter_filter]
    refine Prod.ext rfl ?_
    refine List.filter_congr (fun g _ => ?_)
    simp only [List.all_cons]
    rw [Bool.and_comm, bne_name_comm]

theorem removeAll_true (files fs : List CmdFile)
    (h : (removeAll files fs).1 = true) :
    (removeAll files fs).2 =
      fs.filter fun g => files.all fun f => f.name != g.name := by
  induction files generalizing fs with
  | nil => simp [removeAll]
  | cons f rest ih =>
    by_cases hf : f.removeFails
    · rw [removeAll, if_pos hf] at h
      exact absurd h (by simp)
    · rw [removeAll, if_neg hf] at h ⊢
      rw [ih _ h, List.filter_filter]
      refine List.filter_congr (fun g _ => ?_)
      simp only [List.all_cons]
      rw [Bool.and_comm, bne_name_comm]

theorem filter_names_of_filter (p : CmdFile → Bool)
    (hname : ∀ f g, f.name = g.name → p f = p g) (fs : List CmdFile) :
    (fs.filter fun g => (fs.filter p).all fun f => f.name != g.name) =
      fs.filter fun g => !p g := by
  refine List.filter_congr (fun g hg => ?_)
  by_cases hp : p g
  · have hmem : g ∈ fs.filter p := List.mem_filter.mpr ⟨hg, hp⟩
    have : ¬ ((fs.filter p).all fun f => f.name != g.name) = true := by
      intro hall
      have := List.all_eq_true.mp hall g hmem
      simp at this
    simp [hp, Bool.eq_false_iff.mpr this]
  · have : ((fs.filter p).all fun f => f.name != g.name) = true := by
      refine List.all_eq_true.mpr (fun f hf => ?_)
      have hpf : p f = true := (List.mem_filter.mp hf).2
      have : f.name ≠ g.name := by
        intro hn
        rw [hname f g hn] at hpf
        exact hp hpf
      simpa using this
    simp [hp, this]

theorem tryKind_none (pat cmd : String) (next : List CmdFile → Option String × List CmdFile)
    (fs : List CmdFile) (h : fs.filter (cmdMatch pat) = []) :
    tryKind pat cmd next fs = next fs := by
  simp [tryKind, h]

theorem tryKind_found (pat cmd : String) (next : List CmdFile → Option String × List CmdFile)
    (fs : List CmdFile) (hne : fs.filter (cmdMatch pat) ≠ [])
    (hok : ∀ f ∈ fs, cmdMatch pat f = true → f.removeFails = false) :
    tryKind pat cmd next fs = (some cmd, fs.filter fun g => !cmdMatch pat g) := by
  have hok' : ∀ f ∈ fs.filter (cmdMatch pat), f.removeFails = false := by
    intro f hf
    have := List.mem_filter.mp hf
    exact hok f this.1 this.2
  simp only [tryKind, List.isEmpty_iff]
  rw [removeAll_ok _ _ hok', if_neg hne, if_pos rfl,
    filter_names_of_filter _ (cmdMatch_name pat) fs]

theorem any_iff_filter_ne (p : CmdFile → Bool) (l : List CmdFile) :
    l.any p = true ↔ l.filter p ≠ [] := by
  rw [List.any_eq_true, Ne, List.filter_eq_nil_iff]
  push_neg
  simp

theorem any_false_filter_nil (p : CmdFile → Bool) (l : List CmdFile)
    (h : l.any p = false) : l.filter p = [] := by
  by_contra hc
  have h2 := (any_iff_filter_ne p l).mpr hc
  rw [h] at h2
  cases h2

theorem tryKind_drained (pat cmd : String)
    (next : List CmdFile → Option String × List CmdFile)
    (hnext : ∀ fs c p, (next fs).1 = some c → patOf c = some p →
      ∀ g ∈ (next fs).2, cmdMatch p g = false)
    (hcmd : patOf cmd = some pat) :
    ∀ fs c p, (tryKind pat cmd next fs).1 = some c → patOf c = some p →
      ∀ g ∈ (tryKind pat cmd next fs).2, cmdMatch p g = false := by
  intro fs c p h1 h2 g hg
  by_cases hempty : fs.filter (cmdMatch pat) = []
  · rw [tryKind_none _ _ _ _ hempty] at h1 hg
    exact hnext fs c p h1 h2 g hg
  · simp only [tryKind, List.isEmpty_iff] at h1 hg
    rw [if_neg hempty] at h1 hg
    cases hr : (removeAll (fs.filter (cmdMatch pat)) fs).1 with
    | false =>
      rw [if_neg (by simp [hr])] at h1 hg
      exact hnext _ c p h1 h2 g hg
    | true =>
      rw [if_pos hr] at h1 hg
      have hc : c = cmd := by
        simpa using h1.symm
      subst hc
      have hp : p = pat := by
        rw [hcmd] at h2
        simpa using h2.symm
      rw [removeAll_true _ _ hr,
        filter_names_of_filter _ (cmdMatch_name pat) fs] at hg
      have hmem := (List.mem_filter.mp hg).2
      rw [hp]
      simpa using hmem

theorem check_stop (fs : List CmdFile) (hne : fs.any (cmdMatch "stop_") = true)
    (hok : ∀ f ∈ fs, cmdMatch "stop_" f = true → f.removeFails = false) :
    check_for_commands fs = (some "stop", fs.filter fun f => !cmdMatch "stop_" f) := by
  rw [check_for_commands]
  exact tryKind_found _ _ _ _ ((any_iff_filter_ne _ _).mp hne) hok

theorem removeAll_subset (files fs : List CmdFile) :
    ∀ g ∈ (removeAll files fs).2, g ∈ fs := by
  induction files generalizing fs with
  | nil => intro g hg; simpa [removeAll] using hg
  | cons f rest ih =>
    intro g hg
    rw [removeAll] at hg
    by_cases hf : f.removeFails
    · rw [if_pos hf] at hg; exact hg
    · rw [if_neg hf] at hg
      exact List.mem_of_mem_filter (ih _ g hg)

theorem tryKind_subset (pat cmd : String)
    (next : List CmdFile → Option String × List CmdFile)
    (hnext : ∀ fs, ∀ g ∈ (next fs).2, g ∈ fs) :
    ∀ fs, ∀ g ∈ (tryKind pat cmd next fs).2, g ∈ fs := by
  intro fs g hg
  by_cases hempty : fs.filter (cmdMatch pat) = []
  · rw [tryKind_none _ _ _ _ hempty] at hg
    exact hnext fs g hg
  · simp only [tryKind, List.isEmpty_iff] at hg
    rw [if_neg hempty] at hg
    cases hr : (removeAll (fs.filter (cmdMatch pat)) fs).1 with
    | false =>
      rw [if_neg (by simp [hr])] at hg
      exact removeAll_subset _ _ g (hnext _ g hg)
    | true =>
      rw [if_pos hr] at hg
      exact removeAll_subset _ _ g hg

end Monitor

/-- C5: On every tick, `check_for_commands` considers command kinds in the
fixed priority order Stop > DeleteNow > Pause > Resume; for the
highest-priority kind with at least one matching file it deletes every file
matching that kind's pattern, returns that kind, and leaves all files of
lower-priority kinds untouched for later ticks; it returns `none` when no
recognized entries exist. (Stated under the hypothesis that the matched
removals succeed; removal failures are the subject of C6.) -/
theorem claim_C5 (fs : List CmdFile) (hok : ∀ f ∈ fs, f.removeFails = false) :
    (fs.any (cmdMatch "stop_") = true →
      Monitor.check_for_commands fs =
        (some "stop", fs.filter fun f => !cmdMatch "stop_" f))
    ∧ (fs.any (cmdMatch "stop_") = false → fs.any (cmdMatch "delete_now_") = true →
      Monitor.check_for_commands fs =
        (some "delete_now", fs.filter fun f => !cmdMatch "delete_now_" f))
    ∧ (fs.any (cmdMatch "stop_") = false → fs.any (cmdMatch "delete_now_") = false →
      fs.any (cmdMatch "pause_") = true →
      Monitor.check_for_commands fs =
        (some "pause", fs.filter fun f => !cmdMatch "pause_" f))
    ∧ (fs.any (cmdMatch "stop_") = false → fs.any (cmdMatch "delete_now_") = false →
      fs.any (cmdMatch "pause_") = false → fs.any (cmdMatch "resume_") = true →
      Monitor.check_for_commands fs =
        (some "resume", fs.filter fun f => !cmdMatch "resume_" f))
    ∧ ((∀ f ∈ fs, recognizedCmd f = false) →
      Monitor.check_for_commands fs = (none, fs)) := by
  have hokp : ∀ (pat : String), ∀ f ∈ fs, cmdMatch pat f = true → f.removeFails = false :=
    fun _ f hf _ => hok f hf
  refine ⟨?_, ?_, ?_, ?_, ?_⟩
  · intro h1
    exact Monitor.check_stop fs h1 (hokp _)
  · intro h0 h1
    rw [Monitor.check_for_commands,
      Monitor.tryKind_none _ _ _ _ (Monitor.any_false_filter_nil _ _ h0)]
    exact Monitor.tryKind_found _ _ _ _
      ((Monitor.any_iff_filter_ne _ _).mp h1) (hokp _)
  · intro h0 h1 h2
    rw [Monitor.check_for_commands,
      Monitor.tryKind_none _ _ _ _ (Monitor.any_false_filter_nil _ _ h0),
      Monitor.tryKind_none _ _ _ _ (Monitor.any_false_filter_nil _ _ h1)]
    exact Monitor.tryKind_found _ _ _ _
      ((Monitor.any_iff_filter_ne _ _).mp h2) (hokp _)
  · intro h0 h1 h2 h3
    rw [Monitor.check_for_commands,
      Monitor.tryKind_none _ _ _ _ (Monitor.any_false_filter_nil _ _ h0),
      Monitor.tryKind_none _ _ _ _ (Monitor.any_false_filter_nil _ _ h1),
      Monitor.tryKind_none _ _ _ _ (Monitor.any_false_filter_nil _ _ h2)]
    exact Monitor.tryKind_found _ _ _ _
      ((Monitor.any_iff_filter_ne _ _).mp h3) (hokp _)
  · intro hnone
    have hcomp : ∀ f ∈ fs, cmdMatch "stop_" f = false ∧ cmdMatch "delete_now_" f = false ∧
        cmdMatch "pause_" f = false ∧ cmdMatch "resume_" f = false := by
      intro f hf
      have h := hnone f hf
      simp only [recognizedCmd, Bool.or_eq_false_iff] at h
      tauto
    rw [Monitor.check_for_commands,
      Monitor.tryKind_none _ _ _ _
        (List.filter_eq_nil_iff.mpr (fun f hf => by simp [(hcomp f hf).1])),
      Monitor.tryKind_none _ _ _ _
        (List.filter_eq_nil_iff.mpr (fun f hf => by simp [(hcomp f hf).2.1])),
      Monitor.tryKind_none _ _ _ _
        (List.filter_eq_nil_iff.mpr (fun f hf => by simp [(hcomp f hf).2.2.1])),
      Monitor.tryKind_none _ _ _ _
        (List.filter_eq_nil_iff.mpr (fun f hf => by simp [(hcomp f hf).2.2.2]))]

theorem claim_C5_witness :
    Monitor.check_for_commands
      [⟨"stop_1.json", false⟩, ⟨"stop_2.json", false⟩, ⟨"pause_3.json", false⟩]
      = (some "stop", [⟨"pause_3.json", false⟩]) :=
  (claim_C5 _ (by decide)).1 (by decide)

/-- C6 (counterexample): with a stop file whose removal fails and a pause
file alongside it, `check_for_commands` returns the lower-priority
`"pause"` while the stop-matching file is still present — refuting "a
lower-priority command is never returned while a higher-priority command's
file remains present". -/
theorem claim_C6_counterexample :
    Monitor.check_for_commands [⟨"stop_1.json", true⟩, ⟨"pause_1.json", false⟩] =
      (some "pause", [⟨"stop_1.json", true⟩])
    ∧ cmdMatch "stop_" ⟨"stop_1.json", true⟩ = true := by decide

/-- C6 (amended): a removal failure is logged and does not abort the tick,
but the failed kind is not delivered — the scan falls through to
lower-priority kinds, so the kind actually returned always has all of its
matching files removed, and every file still present after the scan (in
particular any higher-priority file whose removal failed) is a file of the
original directory, available for reprocessing on the next tick. -/
theorem claim_C6 :
    (∀ fs c p, (Monitor.check_for_commands fs).1 = some c → Monitor.patOf c = some p →
      ∀ g ∈ (Monitor.check_for_commands fs).2, cmdMatch p g = false)
    ∧ (∀ fs, ∀ g ∈ (Monitor.check_for_commands fs).2, g ∈ fs) := by
  have base : ∀ fs c p,
      ((fun fs : List CmdFile => ((none : Option String), fs)) fs).1 = some c →
      Monitor.patOf c = some p →
      ∀ g ∈ ((fun fs : List CmdFile => ((none : Option String), fs)) fs).2, cmdMatch p g = false := by
    intro fs c p h1
    cases h1
  have baseSub : ∀ fs, ∀ g ∈ ((fun fs : List CmdFile => ((none : Option String), fs)) fs).2, g ∈ fs := by
    intro fs g hg
    exact hg
  constructor
  · exact Monitor.tryKind_drained _ _ _
      (Monitor.tryKind_drained _ _ _
        (Monitor.tryKind_drained _ _ _
          (Monitor.tryKind_drained _ _ _ base rfl) rfl) rfl) rfl
  · intro fs g hg
    rw [Monitor.check_for_commands] at hg
    exact Monitor.tryKind_subset "stop_" "stop" _
      (Monitor.tryKind_subset "delete_now_" "delete_now" _
        (Monitor.tryKind_subset "pause_" "pause" _
          (Monitor.tryKind_subset "resume_" "resume" _ baseSub))) fs g hg

theorem claim_C6_witness :
    cmdMatch "delete_now_" ⟨"resume_2.json", false⟩ = false :=
  claim_C6.1 [⟨"delete_now_1.json", false⟩, ⟨"resume_2.json", false⟩]
    "delete_now" "delete_now_" (by decide) rfl
    ⟨"resume_2.json", false⟩ (by decide)

theorem listPre_iff (p : List Char) : ∀ s, listPre p s = true ↔ ∃ r, s = p ++ r := by
  induction p with
  | nil =>
    intro s
    simp [listPre]
  | cons a as ih =>
    intro s
    cases s with
    | nil =>
      simp [listPre]
    | cons b bs =>
      rw [listPre]
      simp only [Bool.and_eq_true, beq_iff_eq, ih bs]
      constructor
      · rintro ⟨hab, r, hr⟩
        exact ⟨r, by simp [hab, hr]⟩
      · rintro ⟨r, hr⟩
        simp only [List.cons_append, List.cons.injEq] at hr
        exact ⟨hr.1.symm, r, hr.2⟩

theorem containsSub_iff (n : List Char) :
    ∀ h, containsSub n h = true ↔ ∃ l r, h = l ++ n ++ r := by
  intro h
  induction h with
  | nil =>
    constructor
    · intro hh
      rw [containsSub] at hh
      refine ⟨[], [], ?_⟩
      simp [List.isEmpty_iff.mp hh]
    · rintro ⟨l, r, hr⟩
      rw [containsSub]
      rcases List.append_eq_nil.mp hr.symm with ⟨h1, h2⟩
      rcases List.append_eq_nil.mp h1 with ⟨_, h4⟩
      simp [h4]
  | cons c t ih =>
    rw [containsSub]
    simp only [Bool.or_eq_true, listPre_iff, ih]
    constructor
    · rintro (⟨r, hr⟩ | ⟨l, r, hr⟩)
      · exact ⟨[], r, by simp [hr]⟩
      · exact ⟨c :: l, r, by simp [hr]⟩
    · rintro ⟨l, r, hr⟩
      cases l with
      | nil =>
        left
        exact ⟨r, by simpa using hr⟩
      | cons x xs =>
        right
        simp only [List.cons_append, List.cons.injEq] at hr
        exact ⟨xs, r, hr.2⟩

theorem monitor_probe_iff (ws : String) (procs : List (Option String)) :
    Monitor.is_process_running ws procs = true ↔
      ∃ nm, (some nm) ∈ procs ∧ ∃ w ∈ splitComma ws.toList,
        ∃ l r, lowerL nm.toList = l ++ lowerL (stripL w) ++ r := by
  rw [Monitor.is_process_running, List.any_eq_true]
  constructor
  · rintro ⟨p, hp, hmatch⟩
    cases p with
    | none => simp [Monitor.procMatch] at hmatch
    | some nm =>
      rw [Monitor.procMatch, List.any_eq_true] at hmatch
      obtain ⟨w, hw, hc⟩ := hmatch
      exact ⟨nm, hp, w, hw, (containsSub_iff _ _).mp hc⟩
  · rintro ⟨nm, hnm, w, hw, l, r, hr⟩
    refine ⟨some nm, hnm, ?_⟩
    rw [Monitor.procMatch, List.any_eq_true]
    exact ⟨w, hw, (containsSub_iff _ _).mpr ⟨l, r, hr⟩⟩

theorem vast_probe_iff (names : List String) (procs : List (Option String)) :
    Vast.is_process_running names procs = true ↔
      ∃ nm, (some nm) ∈ procs ∧ ∃ w ∈ names, lowerL w.toList = lowerL nm.toList := by
  rw [Vast.is_process_running, List.any_eq_true]
  constructor
  · rintro ⟨p, hp, hmatch⟩
    cases p with
    | none => simp [Vast.procMatch] at hmatch
    | some nm =>
      rw [Vast.procMatch] at hmatch
      simp only [List.any_eq_true, beq_iff_eq] at hmatch
      obtain ⟨w, hw, hc⟩ := hmatch
      exact ⟨nm, hp, w, hw, hc⟩
  · rintro ⟨nm, hnm, w, hw, hr⟩
    refine ⟨some nm, hnm, ?_⟩
    rw [Vast.procMatch]
    simp only [List.any_eq_true, beq_iff_eq]
    exact ⟨w, hw, hr⟩

namespace Monitor

theorem runDeletes_events (delOk : Int → Bool) (l : List Instance) :
    ∀ ev ∈ (runDeletes delOk l).1, ∃ n b, ev = Event.deleteAttempt n b := by
  induction l with
  | nil =>
    intro ev hev
    simp [runDeletes] at hev
  | cons i rest ih =>
    intro ev hev
    rw [runDeletes] at hev
    rcases List.mem_append.mp hev with h | h
    · cases hid : i.id with
      | none => rw [hid] at h; simp at h
      | some n =>
        rw [hid] at h
        by_cases hz : (n != 0) = true
        · simp only [hz, if_true] at h
          rcases List.mem_singleton.mp h with rfl
          exact ⟨n, delOk n, rfl⟩
        · simp [hz] at h
    · exact ih ev h

theorem runDeletes_success_iff (delOk : Int → Bool) (l : List Instance) :
    (runDeletes delOk l).2 = true ↔
      ∃ n, Event.deleteAttempt n true ∈ (runDeletes delOk l).1 := by
  induction l with
  | nil => simp [runDeletes]
  | cons i rest ih =>
    rw [runDeletes]
    cases hid : i.id with
    | none =>
      simpa only [Bool.false_or, List.nil_append] using ih
    | some n =>
      by_cases hz : (n != 0) = true
      · simp only [hz, if_true, Bool.or_eq_true, List.mem_append,
          List.mem_singleton, ih]
        constructor
        · rintro (hok | ⟨m, hm⟩)
          · exact ⟨n, Or.inl (by rw [hok])⟩
          · exact ⟨m, Or.inr hm⟩
        · rintro ⟨m, hm | hm⟩
          · rcases Event.deleteAttempt.inj hm with ⟨h1, h2⟩
            exact Or.inl h2.symm
          · exact Or.inr ⟨m, hm⟩
      · simp only [hz, if_false, Bool.false_or, List.nil_append]
        exact ih

theorem timeoutFired_notin_cmdEvents (cfg : Config) (st : MonitorState) (e : Env)
    (c : Option String) : Event.timeoutFired ∉ cmdEvents cfg st e c := by
  rw [cmdEvents]
  split_ifs with h1 h2 h3
  · simp
  · simp
  · intro h
    rcases List.mem_cons.mp h with h | h
    · cases h
    · obtain ⟨n, b, hnb⟩ := runDeletes_events _ _ _ h
      cases hnb
  · simp

theorem timeoutFired_notin_edgeEvents (st1 : MonitorState) (current : Bool) :
    Event.timeoutFired ∉ edgeEvents st1 current := by
  rw [edgeEvents]
  split_ifs <;> simp

theorem edgeState_process_running (st1 : MonitorState) (now : ℚ) (current : Bool) :
    (edgeState st1 now current).process_running = current := by
  rw [edgeState]
  split_ifs with h
  · rfl
  · simp at h
    rw [h]

theorem edgeState_paused (st1 : MonitorState) (now : ℚ) (current : Bool) :
    (edgeState st1 now current).paused = st1.paused := by
  rw [edgeState]
  split_ifs <;> rfl

theorem edgeState_last (st1 : MonitorState) (now : ℚ) (current : Bool) :
    (edgeState st1 now current).last_seen_running =
      if current != st1.process_running then now else st1.last_seen_running := by
  rw [edgeState]
  split_ifs <;> rfl

end Monitor

namespace Monitor

theorem tick_stop (cfg : Config) (st : MonitorState) (e : Env)
    (h : (check_for_commands e.fs).1 = some "stop") :
    tick cfg st e =
      { res := .exited, st := st, fs := (check_for_commands e.fs).2,
        events := [.statusUpdate "Monitoring Stopped" st.process_running none] } := by
  simp [tick, h]

theorem tick_timeout_iff (cfg : Config) (st : MonitorState) (e : Env) :
    Event.timeoutFired ∈ (tick cfg st e).events ↔
      ((check_for_commands e.fs).1 ≠ some "stop" ∧
        pausedAfter st.paused (check_for_commands e.fs).1 = false ∧
        is_process_running cfg.processes_to_monitor e.procs = false ∧
        cfg.timeout_minutes * 60 ≤
          e.now - (if st.process_running then e.now else st.last_seen_running)) := by
  by_cases hstop : (check_for_commands e.fs).1 = some "stop"
  · simp [tick, hstop]
  · by_cases hpause : pausedAfter st.paused (check_for_commands e.fs).1 = true
    · refine iff_of_false ?_ (fun hR => by rw [hR.2.1] at hpause; simp at hpause)
      simp [tick, hstop, hpause, timeoutFired_notin_cmdEvents]
    · have hpf : pausedAfter st.paused (check_for_commands e.fs).1 = false :=
        Bool.eq_false_iff.mpr hpause
      by_cases hprobe : is_process_running cfg.processes_to_monitor e.procs = true
      · refine iff_of_false ?_ (fun hR => by rw [hR.2.2.1] at hprobe; simp at hprobe)
        simp [tick, hstop, hpf, hprobe, timeoutFired_notin_cmdEvents,
          timeoutFired_notin_edgeEvents, edgeState_process_running]
      · have hpr : is_process_running cfg.processes_to_monitor e.procs = false :=
          Bool.eq_false_iff.mpr hprobe
        by_cases hrem : cfg.timeout_minutes * 60 ≤
            e.now - (if st.process_running then e.now else st.last_seen_running)
        · refine iff_of_true ?_ ⟨hstop, hpf, hpr, hrem⟩
          simp only [tick, hstop, if_false]
          simp [hpf, hpr, edgeState_process_running, edgeState_last, sub_nonpos, hrem,
            timeoutFired_notin_cmdEvents, timeoutFired_notin_edgeEvents]
          split_ifs <;> simp
        · refine iff_of_false ?_ (fun hR => hrem hR.2.2.2)
          simp [tick, hstop, hpf, hpr, edgeState_process_running, edgeState_last,
            sub_nonpos, hrem, timeoutFired_notin_cmdEvents, timeoutFired_notin_edgeEvents]

theorem tick_edge_reset (cfg : Config) (st : MonitorState) (e : Env)
    (hstop : (check_for_commands e.fs).1 ≠ some "stop")
    (hpf : pausedAfter st.paused (check_for_commands e.fs).1 = false)
    (hpr : st.process_running = false)
    (hprobe : is_process_running cfg.processes_to_monitor e.procs = true) :
    (tick cfg st e).st.last_seen_running = e.now ∧
      (tick cfg st e).st.process_running = true := by
  simp [tick, hstop, hpf, hprobe, hpr, edgeState]

end Monitor

/-- C1: for every tick of every run, the timeout-deletion branch fires iff no
stop command was delivered, the loop is unpaused after command handling, the
probe reports not-running, and `now - lastActiveAt` has reached the grace
period — where `lastActiveAt` is the loop-start/last-edge value, reset to
`now` by the current tick's own edge (so a tick whose probe edge just
happened never fires for positive grace periods); and a probe transition
from not-running to running resets `lastActiveAt` to `now`, so the full
grace period must elapse again. -/
theorem claim_C1 (cfg : Monitor.Config) (st : Monitor.MonitorState) (e : Monitor.Env) :
    (Monitor.Event.timeoutFired ∈ (Monitor.tick cfg st e).events ↔
      ((Monitor.check_for_commands e.fs).1 ≠ some "stop" ∧
        Monitor.pausedAfter st.paused (Monitor.check_for_commands e.fs).1 = false ∧
        Monitor.is_process_running cfg.processes_to_monitor e.procs = false ∧
        cfg.timeout_minutes * 60 ≤
          e.now - (if st.process_running then e.now else st.last_seen_running)))
    ∧ ((Monitor.check_for_commands e.fs).1 ≠ some "stop" →
        Monitor.pausedAfter st.paused (Monitor.check_for_commands e.fs).1 = false →
        st.process_running = false →
        Monitor.is_process_running cfg.processes_to_monitor e.procs = true →
        (Monitor.tick cfg st e).st.last_seen_running = e.now ∧
          (Monitor.tick cfg st e).st.process_running = true) :=
  ⟨Monitor.tick_timeout_iff cfg st e,
   fun h1 h2 h3 h4 => Monitor.tick_edge_reset cfg st e h1 h2 h3 h4⟩

theorem claim_C1_witness :
    Monitor.Event.timeoutFired ∈
      (Monitor.tick ⟨"worker.exe", 1, "mylabel"⟩ ⟨false, 0, false⟩
        ⟨100, [], [], some [], fun _ => false⟩).events
    ∧ (Monitor.tick ⟨"worker.exe", 1, "mylabel"⟩ ⟨false, 0, false⟩
        ⟨100, [some "Worker.exe"], [], some [], fun _ => false⟩).st.last_seen_running
        = 100 :=
  ⟨(claim_C1 _ _ _).1.mpr ⟨by decide, by decide, by decide, by norm_num⟩,
   ((claim_C1 _ _ _).2 (by decide) (by decide) rfl (by decide)).1⟩

/-- C2: on a tick where a Stop command file is present (and removable) and
the grace period has simultaneously expired, the loop publishes the final
"Monitoring Stopped" snapshot and exits with the success code without
invoking any deletion: commands are drained and acted on before the
probe/timer logic of the same tick. -/
theorem claim_C2 (cfg : Monitor.Config) (st : Monitor.MonitorState) (e : Monitor.Env)
    (hstop : e.fs.any (cmdMatch "stop_") = true)
    (hok : ∀ f ∈ e.fs, cmdMatch "stop_" f = true → f.removeFails = false)
    (hexp : cfg.timeout_minutes * 60 ≤ e.now - st.last_seen_running) :
    (Monitor.tick cfg st e).res = .exited ∧
    Monitor.Event.statusUpdate "Monitoring Stopped" st.process_running none ∈
      (Monitor.tick cfg st e).events ∧
    Monitor.Event.timeoutFired ∉ (Monitor.tick cfg st e).events ∧
    Monitor.Event.deleteNowFired ∉ (Monitor.tick cfg st e).events ∧
    (∀ n b, Monitor.Event.deleteAttempt n b ∉ (Monitor.tick cfg st e).events) := by
  have hcheck := Monitor.check_stop e.fs hstop hok
  have ht := Monitor.tick_stop cfg st e (by rw [hcheck])
  rw [ht]
  exact ⟨rfl, by simp, by simp, by simp, fun n b => by simp⟩

theorem claim_C2_witness :
    (Monitor.tick ⟨"worker.exe", 1, "mylabel"⟩ ⟨false, 0, false⟩
      ⟨100, [], [⟨"stop_1.json", false⟩], some [], fun _ => false⟩).res =
        Monitor.TickRes.exited ∧
    Monitor.Event.statusUpdate "Monitoring Stopped" false none ∈
      (Monitor.tick ⟨"worker.exe", 1, "mylabel"⟩ ⟨false, 0, false⟩
        ⟨100, [], [⟨"stop_1.json", false⟩], some [], fun _ => false⟩).events ∧
    Monitor.Event.timeoutFired ∉
      (Monitor.tick ⟨"worker.exe", 1, "mylabel"⟩ ⟨false, 0, false⟩
        ⟨100, [], [⟨"stop_1.json", false⟩], some [], fun _ => false⟩).events ∧
    Monitor.Event.deleteNowFired ∉
      (Monitor.tick ⟨"worker.exe", 1, "mylabel"⟩ ⟨false, 0, false⟩
        ⟨100, [], [⟨"stop_1.json", false⟩], some [], fun _ => false⟩).events ∧
    (∀ n b, Monitor.Event.deleteAttempt n b ∉
      (Monitor.tick ⟨"worker.exe", 1, "mylabel"⟩ ⟨false, 0, false⟩
        ⟨100, [], [⟨"stop_1.json", false⟩], some [], fun _ => false⟩).events) :=
  claim_C2 _ _ _ (by decide) (by decide) (by norm_num)

theorem containsSub_nil (h : List Char) : containsSub [] h = true := by
  cases h <;> simp [containsSub, listPre]

theorem probe_empty_entry (ws : String)
    (hEmpty : ∃ w ∈ splitComma ws.toList, stripL w = []) :
    ∀ procs, Monitor.is_process_running ws procs = true ↔ ∃ nm, some nm ∈ procs := by
  intro procs
  rw [monitor_probe_iff]
  constructor
  · rintro ⟨nm, hnm, _⟩
    exact ⟨nm, hnm⟩
  · rintro ⟨nm, hnm⟩
    obtain ⟨w, hw, hstrip⟩ := hEmpty
    exact ⟨nm, hnm, w, hw, [], lowerL nm.toList, by simp [hstrip, lowerL]⟩

theorem runEvents_no_timeout (cfg : Monitor.Config) (st : Monitor.MonitorState)
    (envs : List Monitor.Env)
    (hprobe : ∀ e ∈ envs,
      Monitor.is_process_running cfg.processes_to_monitor e.procs = true) :
    Monitor.Event.timeoutFired ∉ Monitor.runEvents cfg st envs := by
  induction envs generalizing st with
  | nil => simp [Monitor.runEvents]
  | cons e es ih =>
    have hte : Monitor.Event.timeoutFired ∉ (Monitor.tick cfg st e).events := by
      rw [Monitor.tick_timeout_iff]
      rintro ⟨_, _, h3, _⟩
      rw [hprobe e (List.mem_cons_self e es)] at h3
      cases h3
    rw [Monitor.runEvents]
    cases hres : (Monitor.tick cfg st e).res with
    | continued =>
      intro hmem
      rcases List.mem_append.mp hmem with h | h
      · exact hte h
      · exact ih _ (fun e2 he2 => hprobe e2 (List.mem_cons_of_mem e he2)) h
    | exited => exact hte
    | stopped => exact hte

/-- C10: a watch-list with an empty entry (for example a trailing comma)
makes the substring-mode probe of `monitor_process.py` return `true` exactly
when the process table has at least one enumerable process; consequently, on
any run whose every tick sees at least one enumerable process, the
timeout-deletion branch never fires, so the remote resource is never
auto-deleted. -/
theorem claim_C10 (cfg : Monitor.Config) (st : Monitor.MonitorState)
    (envs : List Monitor.Env)
    (hEmpty : ∃ w ∈ splitComma cfg.processes_to_monitor.toList, stripL w = []) :
    (∀ procs, Monitor.is_process_running cfg.processes_to_monitor procs = true ↔
      ∃ nm, some nm ∈ procs)
    ∧ ((∀ e ∈ envs, ∃ nm, some nm ∈ e.procs) →
      Monitor.Event.timeoutFired ∉ Monitor.runEvents cfg st envs) := by
  have hiff := probe_empty_entry cfg.processes_to_monitor hEmpty
  exact ⟨hiff, fun hprocs =>
    runEvents_no_timeout cfg st envs (fun e he => (hiff e.procs).mpr (hprocs e he))⟩

theorem claim_C10_witness :
    Monitor.is_process_running "worker.exe," [some "unrelated"] = true ∧
    Monitor.Event.timeoutFired ∉
      Monitor.runEvents ⟨"worker.exe,", 1, "mylabel"⟩ ⟨false, 0, false⟩
        [⟨100, [some "unrelated"], [], some [], fun _ => false⟩] :=
  ⟨((claim_C10 ⟨"worker.exe,", 1, "mylabel"⟩ ⟨false, 0, false⟩ [] (by decide)).1
      [some "unrelated"]).mpr ⟨"unrelated", by simp⟩,
   (claim_C10 ⟨"worker.exe,", 1, "mylabel"⟩ ⟨false, 0, false⟩
      [⟨100, [some "unrelated"], [], some [], fun _ => false⟩] (by decide)).2
     (fun e he => by
       rcases List.mem_singleton.mp he with rfl
       exact ⟨"unrelated", by simp⟩)⟩

namespace Monitor

theorem tick_timeout_nomatch (cfg : Config) (st : MonitorState) (e : Env)
    (hc : (check_for_commands e.fs).1 = none)
    (hpaused : st.paused = false)
    (hpr : st.process_running = false)
    (hprobe : is_process_running cfg.processes_to_monitor e.procs = false)
    (hexp : cfg.timeout_minutes * 60 ≤ e.now - st.last_seen_running)
    (hinst : get_instances e.apiResp (some cfg.instance_identifier) = []) :
    (tick cfg st e).st.last_seen_running = e.now - cfg.timeout_minutes * 60 + 60 ∧
    (tick cfg st e).res = .continued := by
  simp [tick, hc, pausedAfter, hpaused, hprobe, hpr, edgeState, edgeEvents, hinst,
    sub_nonpos, hexp]

theorem tick_delete_now_nomatch (cfg : Config) (st : MonitorState) (e : Env)
    (hc : (check_for_commands e.fs).1 = some "delete_now")
    (hinst : get_instances e.apiResp (some cfg.instance_identifier) = [])
    (hnoedge : is_process_running cfg.processes_to_monitor e.procs = st.process_running)
    (hnofire : st.process_running = true ∨
      ¬ (cfg.timeout_minutes * 60 ≤ e.now - st.last_seen_running)) :
    (tick cfg st e).st.last_seen_running = st.last_seen_running ∧
    (tick cfg st e).res = .continued ∧
    (∀ n b, Event.deleteAttempt n b ∉ (tick cfg st e).events) := by
  have hevs : cmdEvents cfg st e (some "delete_now") = [Event.deleteNowFired] := by
    simp [cmdEvents, hinst, runDeletes]
  cases hpaused : st.paused with
  | true =>
    simp [tick, hc, pausedAfter, hpaused, hevs]
  | false =>
    rcases hnofire with hrun | hnof
    · simp [tick, hc, pausedAfter, hpaused, hevs, hnoedge, hrun, edgeState, edgeEvents]
    · have hnof2 : ¬ (cfg.timeout_minutes * 60 - (e.now - st.last_seen_running) ≤ 0) := by
        rw [sub_nonpos]
        exact hnof
      cases hrunning : st.process_running with
      | true =>
        simp [tick, hc, pausedAfter, hpaused, hevs, hnoedge, hrunning, edgeState,
          edgeEvents]
      | false =>
        simp [tick, hc, pausedAfter, hpaused, hevs, hnoedge, hrunning, edgeState,
          edgeEvents, hnof2]

end Monitor

/-- C4: when the timeout-deletion branch finds zero matching remote
resources, `lastActiveAt` is reset to `now - gracePeriod + 1min`, so exactly
one minute (shorter than the grace period whenever it exceeds one minute,
and never an immediate retry) remains before the next attempt, and the loop
continues; when a DeleteNow command finds zero matching resources (on a tick
with no probe edge and no simultaneous timeout), `lastActiveAt` is left
unchanged, the loop does not transition to Stopped, and no deletion is
attempted. -/
theorem claim_C4 (cfg : Monitor.Config) (st : Monitor.MonitorState) (e : Monitor.Env) :
    (((Monitor.check_for_commands e.fs).1 = none → st.paused = false →
      st.process_running = false →
      Monitor.is_process_running cfg.processes_to_monitor e.procs = false →
      cfg.timeout_minutes * 60 ≤ e.now - st.last_seen_running →
      Monitor.get_instances e.apiResp (some cfg.instance_identifier) = [] →
      (Monitor.tick cfg st e).st.last_seen_running =
          e.now - cfg.timeout_minutes * 60 + 60 ∧
        (Monitor.tick cfg st e).res = .continued ∧
        cfg.timeout_minutes * 60 -
          (e.now - (Monitor.tick cfg st e).st.last_seen_running) = 60 ∧
        (1 < cfg.timeout_minutes →
          60 < cfg.timeout_minutes * 60 ∧ (0 : ℚ) < 60)))
    ∧ ((Monitor.check_for_commands e.fs).1 = some "delete_now" →
      Monitor.get_instances e.apiResp (some cfg.instance_identifier) = [] →
      Monitor.is_process_running cfg.processes_to_monitor e.procs = st.process_running →
      (st.process_running = true ∨
        ¬ (cfg.timeout_minutes * 60 ≤ e.now - st.last_seen_running)) →
      (Monitor.tick cfg st e).st.last_seen_running = st.last_seen_running ∧
        (Monitor.tick cfg st e).res = .continued ∧
        (∀ n b, Monitor.Event.deleteAttempt n b ∉ (Monitor.tick cfg st e).events)) := by
  constructor
  · intro hc hpaused hpr hprobe hexp hinst
    obtain ⟨hlast, hres⟩ :=
      Monitor.tick_timeout_nomatch cfg st e hc hpaused hpr hprobe hexp hinst
    refine ⟨hlast, hres, by rw [hlast]; ring, fun hG => ⟨by linarith, by norm_num⟩⟩
  · intro hc hinst hnoedge hnofire
    exact Monitor.tick_delete_now_nomatch cfg st e hc hinst hnoedge hnofire

theorem claim_C4_witness :
    (Monitor.tick ⟨"worker.exe", 2, "mylabel"⟩ ⟨false, 0, false⟩
      ⟨200, [], [], some [], fun _ => false⟩).st.last_seen_running = 140 ∧
    (Monitor.tick ⟨"worker.exe", 2, "mylabel"⟩ ⟨false, 10, false⟩
      ⟨20, [], [⟨"delete_now_1.json", false⟩], some [], fun _ => false⟩).st.last_seen_running
      = 10 := by
  constructor
  · have h := ((claim_C4 ⟨"worker.exe", 2, "mylabel"⟩ ⟨false, 0, false⟩
      ⟨200, [], [], some [], fun _ => false⟩).1 (by decide) rfl rfl (by decide)
      (by norm_num) (by decide)).1
    rw [h]
    norm_num
  · exact ((claim_C4 ⟨"worker.exe", 2, "mylabel"⟩ ⟨false, 10, false⟩
      ⟨20, [], [⟨"delete_now_1.json", false⟩], some [], fun _ => false⟩).2 (by decide)
      (by decide) (by decide) (Or.inr (by norm_num))).1

namespace Monitor

theorem tick_timeout_instances (cfg : Config) (st : MonitorState) (e : Env)
    (hc : (check_for_commands e.fs).1 = none)
    (hpaused : st.paused = false)
    (hpr : st.process_running = false)
    (hprobe : is_process_running cfg.processes_to_monitor e.procs = false)
    (hexp : cfg.timeout_minutes * 60 ≤ e.now - st.last_seen_running)
    (hne : get_instances e.apiResp (some cfg.instance_identifier) ≠ []) :
    ((runDeletes e.deleteOk (get_instances e.apiResp (some cfg.instance_identifier))).2
        = true →
      (tick cfg st e).res = .stopped ∧
      Event.statusUpdate "Instances Deleted, Monitoring Stopped" false none ∈
        (tick cfg st e).events) ∧
    ((runDeletes e.deleteOk (get_instances e.apiResp (some cfg.instance_identifier))).2
        = false →
      (tick cfg st e).res = .continued ∧
      (tick cfg st e).st.last_seen_running = e.now) ∧
    ((runDeletes e.deleteOk (get_instances e.apiResp (some cfg.instance_identifier))).2
        = true ↔
      ∃ n, Event.deleteAttempt n true ∈ (tick cfg st e).events) := by
  have hni : ¬ (get_instances e.apiResp (some cfg.instance_identifier)).isEmpty = true := by
    simpa [List.isEmpty_iff] using hne
  refine ⟨?_, ?_, ?_⟩
  · intro hd
    simp [tick, hc, pausedAfter, hpaused, hprobe, hpr, edgeState, edgeEvents, hni,
      sub_nonpos, hexp, hd]
  · intro hd
    simp [tick, hc, pausedAfter, hpaused, hprobe, hpr, edgeState, edgeEvents, hni,
      sub_nonpos, hexp, hd]
  · rw [runDeletes_success_iff]
    cases hd : (runDeletes e.deleteOk
        (get_instances e.apiResp (some cfg.instance_identifier))).2 with
    | true =>
      simp [tick, hc, pausedAfter, hpaused, hprobe, hpr, edgeState, edgeEvents, hni,
        sub_nonpos, hexp, hd, cmdEvents]
    | false =>
      simp [tick, hc, pausedAfter, hpaused, hprobe, hpr, edgeState, edgeEvents, hni,
        sub_nonpos, hexp, hd, cmdEvents]

end Monitor

namespace Vast

theorem tick_found (cfg : Config) (st : LoopState) (e : Env)
    (hprobe : is_process_running cfg.process_names e.procs = false)
    (hexp : (e.now - st.last_active_time) / 60 ≥ cfg.timeout_minutes)
    (hterm : st.instances_terminated = false)
    (hne : get_instances e.apiResp (some cfg.instance_label) ≠ []) :
    (tick cfg st e).1.instances_terminated = true ∧
    (tick cfg st e).1.last_active_time = st.last_active_time := by
  have hni : ¬ (get_instances e.apiResp (some cfg.instance_label)).isEmpty = true := by
    simpa [List.isEmpty_iff] using hne
  simp [tick, hprobe, hexp, hterm, hni]

end Vast

/-- C3 (counterexample): in the `vast_auto_shutoff.py` loop, a timeout tick
whose single matching instance fails to delete leaves `last_active_time`
unchanged (not reset to now) and sets `instances_terminated`, so the loop
does not retry after a fresh grace period — refuting the claim for this
cited implementation. -/
theorem claim_C3_counterexample :
    (Vast.tick ⟨["skyrimvr.exe"], 15, "XTTS"⟩ ⟨0, false⟩
      ⟨1000, [], some [⟨some 5, none, some "XTTS"⟩], fun _ => false⟩).1.instances_terminated
      = true ∧
    (Vast.tick ⟨["skyrimvr.exe"], 15, "XTTS"⟩ ⟨0, false⟩
      ⟨1000, [], some [⟨some 5, none, some "XTTS"⟩],
        fun _ => false⟩).1.last_active_time = 0 ∧
    (0 : ℚ) ≠ 1000 := by
  have h := Vast.tick_found ⟨["skyrimvr.exe"], 15, "XTTS"⟩ ⟨0, false⟩
    ⟨1000, [], some [⟨some 5, none, some "XTTS"⟩], fun _ => false⟩
    (by decide) (by norm_num) rfl (by decide)
  exact ⟨h.1, h.2, by norm_num⟩

/-- C3 (amended): in the `monitor_process.py` loop the claim holds as
stated — on a timeout tick with matching instances, if at least one deletion
succeeds the loop publishes the final "Instances Deleted, Monitoring
Stopped" snapshot and ends, and if all deletions fail `lastActiveAt` is
reset to now so the full grace period must elapse before the next retry.
In the `vast_auto_shutoff.py` loop, by contrast, the timeout handler sets
its `instances_terminated` flag whenever matching instances were found,
whether or not any deletion succeeded: the loop keeps running, leaves
`last_active_time` unchanged, and (while the flag is set) never retries. -/
theorem claim_C3 :
    (∀ (cfg : Monitor.Config) (st : Monitor.MonitorState) (e : Monitor.Env),
      (Monitor.check_for_commands e.fs).1 = none → st.paused = false →
      st.process_running = false →
      Monitor.is_process_running cfg.processes_to_monitor e.procs = false →
      cfg.timeout_minutes * 60 ≤ e.now - st.last_seen_running →
      Monitor.get_instances e.apiResp (some cfg.instance_identifier) ≠ [] →
      (((∃ n, Monitor.Event.deleteAttempt n true ∈ (Monitor.tick cfg st e).events) →
        (Monitor.tick cfg st e).res = .stopped ∧
        Monitor.Event.statusUpdate "Instances Deleted, Monitoring Stopped" false none ∈
          (Monitor.tick cfg st e).events) ∧
      ((∀ n, Monitor.Event.deleteAttempt n true ∉ (Monitor.tick cfg st e).events) →
        (Monitor.tick cfg st e).res = .continued ∧
        (Monitor.tick cfg st e).st.last_seen_running = e.now)))
    ∧ (∀ (cfg : Vast.Config) (st : Vast.LoopState) (e : Vast.Env),
      Vast.is_process_running cfg.process_names e.procs = false →
      (e.now - st.last_active_time) / 60 ≥ cfg.timeout_minutes →
      st.instances_terminated = false →
      Vast.get_instances e.apiResp (some cfg.instance_label) ≠ [] →
      (Vast.tick cfg st e).1.instances_terminated = true ∧
      (Vast.tick cfg st e).1.last_active_time = st.last_active_time) := by
  constructor
  · intro cfg st e hc hpaused hpr hprobe hexp hne
    obtain ⟨hsucc, hfail, hiff⟩ :=
      Monitor.tick_timeout_instances cfg st e hc hpaused hpr hprobe hexp hne
    constructor
    · intro hev
      exact hsucc (hiff.mpr hev)
    · intro hno
      refine hfail ?_
      cases hd : (Monitor.runDeletes e.deleteOk
          (Monitor.get_instances e.apiResp (some cfg.instance_identifier))).2 with
      | false => rfl
      | true =>
        obtain ⟨n, hn⟩ := hiff.mp hd
        exact absurd hn (hno n)
  · intro cfg st e hprobe hexp hterm hne
    exact Vast.tick_found cfg st e hprobe hexp hterm hne

theorem claim_C3_witness :
    (Monitor.tick ⟨"worker.exe", 1, "mylabel"⟩ ⟨false, 0, false⟩
      ⟨100, [], [], some [⟨some 7, none, some "mylabel"⟩], fun _ => true⟩).res =
      Monitor.TickRes.stopped ∧
    Monitor.Event.statusUpdate "Instances Deleted, Monitoring Stopped" false none ∈
      (Monitor.tick ⟨"worker.exe", 1, "mylabel"⟩ ⟨false, 0, false⟩
        ⟨100, [], [], some [⟨some 7, none, some "mylabel"⟩], fun _ => true⟩).events :=
  (claim_C3.1 ⟨"worker.exe", 1, "mylabel"⟩ ⟨false, 0, false⟩
      ⟨100, [], [], some [⟨some 7, none, some "mylabel"⟩], fun _ => true⟩
      (by decide) rfl rfl (by decide) (by norm_num) (by decide)).1
    ((Monitor.tick_timeout_instances ⟨"worker.exe", 1, "mylabel"⟩ ⟨false, 0, false⟩
      ⟨100, [], [], some [⟨some 7, none, some "mylabel"⟩], fun _ => true⟩
      (by decide) rfl rfl (by decide) (by norm_num) (by decide)).2.2.mp (by decide))

/-- C7: the probes return true iff at least one enumerable process matches
some watch-list entry — case-insensitive substring containment for the
`monitor_process.py` probe (entries split on commas and stripped),
case-insensitive exact equality for the `vast_auto_shutoff.py` probe;
erroring processes are skipped, and a matching process-table entry decides
the result regardless of the entries after it (the source returns from
inside the loop on the first match). -/
theorem claim_C7 :
    (∀ (ws : String) (procs : List (Option String)),
      Monitor.is_process_running ws procs = true ↔
        ∃ nm, some nm ∈ procs ∧ ∃ w ∈ splitComma ws.toList,
          ∃ l r, lowerL nm.toList = l ++ lowerL (stripL w) ++ r)
    ∧ (∀ (names : List String) (procs : List (Option String)),
      Vast.is_process_running names procs = true ↔
        ∃ nm, some nm ∈ procs ∧ ∃ w ∈ names, lowerL w.toList = lowerL nm.toList)
    ∧ (∀ (ws : String) (p : Option String) (rest : List (Option String)),
      Monitor.procMatch (splitComma ws.toList) p = true →
      Monitor.is_process_running ws (p :: rest) = true) :=
  ⟨monitor_probe_iff, vast_probe_iff, fun ws p rest h => by
    simp only [Monitor.is_process_running, List.any_cons, Bool.or_eq_true]
    exact Or.inl h⟩

theorem claim_C7_witness :
    Monitor.is_process_running "worker.exe, HELPER.BIN" [none, some "xWORKER.EXEy"] = true
    ∧ Vast.is_process_running ["Skyrim.exe"] [some "SKYRIM.EXE"] = true :=
  ⟨(claim_C7.1 "worker.exe, HELPER.BIN" [none, some "xWORKER.EXEy"]).mpr
      ⟨"xWORKER.EXEy", by simp, "worker.exe".toList, by decide,
        ['x'], ['y'], by decide⟩,
   (claim_C7.2.1 ["Skyrim.exe"] [some "SKYRIM.EXE"]).mpr
      ⟨"SKYRIM.EXE", by simp, "Skyrim.exe", by simp, by decide⟩⟩

/-- C8 (counterexample): in `vast_auto_shutoff.get_instances`, the all-digit
selector "123" is not treated as a numeric identifier: the instance with
`id = 123` is filtered out while an instance whose label merely contains
"123" as a substring is returned — refuting both the numeric-parse
precedence and the exact-label-equality parts of the claim for this cited
implementation. -/
theorem claim_C8_counterexample :
    Vast.get_instances
      (some [⟨some 123, none, some "abc"⟩, ⟨some 9, none, some "x123y"⟩])
      (some "123") = [⟨some 9, none, some "x123y"⟩] := by decide

/-- C8 (amended): in `monitor_process.get_instances` the claim holds as
stated: a selector that parses as a Python integer filters by identifier
equality (numeric parse takes precedence, even for an all-digit label), and
otherwise the selector filters by exact label equality. In
`vast_auto_shutoff.get_instances` no integer parse is attempted: a (truthy)
selector keeps exactly the instances whose label — defaulting to the empty
string — case-insensitively contains the selector as a substring. -/
theorem claim_C8 :
    (∀ (instances : List Instance) (ident : String) (n : Int) (inst : Instance),
      pyToInt ident = some n →
      (inst ∈ Monitor.get_instances (some instances) (some ident) ↔
        inst ∈ instances ∧ inst.id = some n))
    ∧ (∀ (instances : List Instance) (ident : String) (inst : Instance),
      ident ≠ "" → pyToInt ident = none →
      (inst ∈ Monitor.get_instances (some instances) (some ident) ↔
        inst ∈ instances ∧ inst.label = some ident))
    ∧ (∀ (instances : List Instance) (lbl : String) (inst : Instance),
      lbl ≠ "" →
      (inst ∈ Vast.get_instances (some instances) (some lbl) ↔
        inst ∈ instances ∧
          ∃ l r, lowerL (inst.label.getD "").toList = l ++ lowerL lbl.toList ++ r)) := by
  refine ⟨?_, ?_, ?_⟩
  · intro instances ident n inst hp
    have hne : ident ≠ "" := by
      intro he
      rw [he] at hp
      simp [pyToInt, stripL] at hp
    have htr : optStrTruthy (some ident) = true := by
      simp [optStrTruthy, hne]
    simp [Monitor.get_instances, htr, hp, List.mem_filter]
  · intro instances ident inst hne hp
    have htr : optStrTruthy (some ident) = true := by
      simp [optStrTruthy, hne]
    simp [Monitor.get_instances, htr, hp, List.mem_filter]
  · intro instances lbl inst hne
    have htr : optStrTruthy (some lbl) = true := by
      simp [optStrTruthy, hne]
    simp [Vast.get_instances, htr, List.mem_filter, containsSub_iff]

theorem claim_C8_witness :
    (⟨some 77, none, some "077"⟩ : Instance) ∈
      Monitor.get_instances
        (some [⟨some 77, none, some "077"⟩, ⟨some 9, none, some "77"⟩]) (some "77") :=
  (claim_C8.1 [⟨some 77, none, some "077"⟩, ⟨some 9, none, some "77"⟩] "77" 77
    ⟨some 77, none, some "077"⟩ (by decide)).mpr ⟨by simp, rfl⟩

/-- C9 (counterexample): two publish calls at distinct times 1000.2s and
1000.8s — within the same wall-clock second — produce the same status file
name, so the second `open(..., "w")` overwrites the first record in place,
refuting "never overwrites ... including two calls within the same
wall-clock second". -/
theorem claim_C9_counterexample :
    Monitor.statusFileName (1000.2 : ℚ) = Monitor.statusFileName (1000.8 : ℚ) ∧
    (1000.2 : ℚ) ≠ (1000.8 : ℚ) := by
  constructor
  · have h : pyTrunc (1000.2 : ℚ) = pyTrunc (1000.8 : ℚ) := by
      norm_num [pyTrunc]
    rw [Monitor.statusFileName, Monitor.statusFileName, h]
  · norm_num

/-- C9 (amended): `update_status` writes to
`status_<int(time.time())>.json`, a name that depends only on the integer
part of the wall-clock second: any two calls within the same integer second
write the same path (so the later call overwrites the earlier record in
place, as in the 1000.2s/1000.8s counterexample), and a genuinely new file
is only created once the integer second advances (as with 1000.2s versus
1001.2s). -/
theorem claim_C9 :
    (∀ t1 t2 : ℚ, pyTrunc t1 = pyTrunc t2 →
      Monitor.statusFileName t1 = Monitor.statusFileName t2)
    ∧ Monitor.statusFileName (1000.2 : ℚ) = Monitor.statusFileName (1000.8 : ℚ)
    ∧ Monitor.statusFileName (1000.2 : ℚ) ≠ Monitor.statusFileName (1001.2 : ℚ) := by
  refine ⟨?_, ?_, ?_⟩
  · intro t1 t2 h
    rw [Monitor.statusFileName, Monitor.statusFileName, h]
  · rw [Monitor.statusFileName, Monitor.statusFileName,
      show pyTrunc (1000.2 : ℚ) = 1000 by norm_num [pyTrunc],
      show pyTrunc (1000.8 : ℚ) = 1000 by norm_num [pyTrunc]]
  · rw [Monitor.statusFileName, Monitor.statusFileName,
      show pyTrunc (1000.2 : ℚ) = 1000 by norm_num [pyTrunc],
      show pyTrunc (1001.2 : ℚ) = 1001 by norm_num [pyTrunc]]
    decide

theorem claim_C9_witness :
    Monitor.statusFileName (5/2 : ℚ) = Monitor.statusFileName (11/4 : ℚ) :=
  claim_C9.1 (5/2 : ℚ) (11/4 : ℚ) (by norm_num [pyTrunc])
